import Mathlib

/-!
Shallow embedding of the SafarSorted inquiry-intake API (src/server.js).

The server is an Express application over a single JSON document
`{inquiries: [...], lastId: n}`.  Each handler reads the document,
optionally mutates it and writes it back.  The embedding models each
handler as a pure function from the request data and the current
document to a result and the new document; JavaScript peculiarities
(truthiness, `parseInt` returning `NaN`, `String.split`, `Buffer`
base64 decoding) are reproduced faithfully.
-/

namespace SafarSorted

/-- A JavaScript whitespace character (the `\s` regex class):
tab, LF, VT, FF, CR, space, NBSP, and the Unicode space separators. -/
def jsWhitespace (c : Char) : Bool :=
  c.toNat == 9 || c.toNat == 10 || c.toNat == 11 || c.toNat == 12 ||
  c.toNat == 13 || c.toNat == 32 || c.toNat == 160 || c.toNat == 5760 ||
  (8192 ≤ c.toNat && c.toNat ≤ 8202) || c.toNat == 8232 || c.toNat == 8233 ||
  c.toNat == 8239 || c.toNat == 8287 || c.toNat == 12288 || c.toNat == 65279

/-- `phone.replace(/\s/g, '')`: remove every whitespace character. -/
def stripWhitespace (s : String) : String :=
  String.mk (s.data.filter (fun c => !(jsWhitespace c)))

/-- The test `/^[\+]?[0-9]{10,15}$/.test s`: an optional leading `+`
followed by 10 to 15 decimal digits and nothing else. -/
def phonePatternTest (s : String) : Bool :=
  let digits := match s.data with
    | '+' :: rest => rest
    | l => l
  digits.all (fun c => '0' ≤ c && c ≤ '9') &&
    decide (10 ≤ digits.length) && decide (digits.length ≤ 15)

/-- The numeric value of `c` as a digit in base `base`, if it is one
(used by `jsParseInt`, which understands `0-9`, `a-z`, `A-Z`). -/
def digitVal (base : Nat) (c : Char) : Option Nat :=
  let v : Option Nat :=
    if '0' ≤ c ∧ c ≤ '9' then some (c.toNat - 48)
    else if 'a' ≤ c ∧ c ≤ 'z' then some (c.toNat - 87)
    else if 'A' ≤ c ∧ c ≤ 'Z' then some (c.toNat - 55)
    else none
  match v with
  | some n => if n < base then some n else none
  | none => none

/-- Accumulate the longest prefix of digits in base `base` on top of `acc`. -/
def takeDigitsVal (base : Nat) (acc : Nat) : List Char → Nat
  | [] => acc
  | c :: rest =>
    match digitVal base c with
    | some d => takeDigitsVal base (acc * base + d) rest
    | none => acc

/-- Parse the longest digit prefix; `none` when there is no digit at all
(`parseInt` then yields `NaN`). -/
def jsParseIntCore (base : Nat) : List Char → Option Nat
  | [] => none
  | c :: rest =>
    match digitVal base c with
    | some d => some (takeDigitsVal base d rest)
    | none => none

/-- JavaScript `parseInt(s)` with no radix argument: trim leading
whitespace, read an optional sign, auto-detect a `0x`/`0X` hex prefix,
then take the longest digit prefix.  `none` models `NaN`. -/
def jsParseInt (s : String) : Option Int :=
  let cs := s.data.dropWhile jsWhitespace
  let signed : Int × List Char :=
    match cs with
    | '-' :: rest => (-1, rest)
    | '+' :: rest => (1, rest)
    | l => (1, l)
  let based : Nat × List Char :=
    match signed.2 with
    | '0' :: 'x' :: rest => (16, rest)
    | '0' :: 'X' :: rest => (16, rest)
    | l => (10, l)
  (jsParseIntCore based.1 based.2).map (fun n => signed.1 * (n : Int))

/-- JavaScript truthiness of an optional string field (`undefined` and
`""` are falsy, every other string is truthy). -/
def truthy : Option String → Bool
  | none => false
  | some s => s != ""

/-- `x || d` on an optional string field, for a string default
(models `email || ''`, `message || ''`). -/
def jsOr (o : Option String) (d : String) : String :=
  match o with
  | some s => if s = "" then d else s
  | none => d

/-- `x || null` on an optional string field (models `travelDate || null`,
`travelerType || null`). -/
def jsOrNull (o : Option String) : Option String :=
  match o with
  | some s => if s = "" then none else some s
  | none => none

/-- The value of a field known to be present (JS just uses the value). -/
def jsGetStr (o : Option String) : String := o.getD ""

/-- An inquiry record, as built by the POST `/api/inquiry` handler.
`travelers` is `Option Int`: `none` models the JavaScript `NaN` that
`parseInt` produces on non-numeric input. -/
structure Inquiry where
  id : Nat
  name : String
  phone : String
  email : String
  travelers : Option Int
  destination : String
  travel_date : Option String
  traveler_type : Option String
  message : String
  status : String
  notes : Option String
  created_at : String
  updated_at : String
deriving Repr, DecidableEq

/-- The persisted store document `{inquiries, lastId}`. -/
structure Document where
  inquiries : List Inquiry
  lastId : Nat
deriving Repr, DecidableEq

/-- The document `readData` returns when the file is missing or corrupt. -/
def emptyDoc : Document := { inquiries := [], lastId := 0 }

/-- The body of a POST `/api/inquiry` request; `none` is an absent field. -/
structure InquiryRequest where
  name : Option String
  phone : Option String
  travelers : Option String
  destination : Option String
  travelDate : Option String
  travelerType : Option String
  email : Option String
  message : Option String
deriving Repr, DecidableEq

/-- Result of the POST `/api/inquiry` handler: HTTP 201 with the new id,
or HTTP 400 with the error message. -/
inductive SubmitResult where
  | created (id : Nat)
  | validationError (msg : String)
deriving Repr, DecidableEq

/-- The inquiry record the POST handler builds on the success path,
after `data.lastId++`: its id is the incremented counter, the phone is
the whitespace-stripped one, `travelers` is `parseInt` of the input,
the `||` defaults of the source apply to the optional fields. -/
def newInquiry (req : InquiryRequest) (nowIso : String) (doc : Document) :
    Inquiry :=
  { id := doc.lastId + 1
    name := jsGetStr req.name
    phone := stripWhitespace (jsGetStr req.phone)
    email := jsOr req.email ""
    travelers := jsParseInt (jsGetStr req.travelers)
    destination := jsGetStr req.destination
    travel_date := jsOrNull req.travelDate
    traveler_type := jsOrNull req.travelerType
    message := jsOr req.message ""
    status := "new"
    notes := none
    created_at := nowIso
    updated_at := nowIso }

/-- The POST `/api/inquiry` handler (src/server.js lines 105-154):
required-field truthiness check, whitespace-stripped phone pattern
check, then `lastId`-increment, record construction and append.
`nowIso` stands for `new Date().toISOString()`. -/
def submit (req : InquiryRequest) (nowIso : String) (doc : Document) :
    SubmitResult × Document :=
  if !(truthy req.name && truthy req.phone &&
       truthy req.travelers && truthy req.destination) then
    (.validationError "Missing required fields", doc)
  else if !(phonePatternTest (stripWhitespace (jsGetStr req.phone))) then
    (.validationError "Invalid phone number", doc)
  else
    (.created (doc.lastId + 1),
      { inquiries := doc.inquiries ++ [newInquiry req nowIso doc]
        lastId := doc.lastId + 1 })

/-- The body of a PUT `/api/admin/inquiries/:id` request.
`status`: `none` models an absent (or null, equally falsy) field.
`notes`: the outer option is field presence (`undefined` when absent),
the inner option distinguishes an explicit `null` from a string. -/
structure UpdateRequest where
  status : Option String
  notes : Option (Option String)
deriving Repr, DecidableEq

/-- Result of the PUT handler: HTTP 200 with the updated record,
or HTTP 404. -/
inductive UpdateResult where
  | ok (inquiry : Inquiry)
  | notFound
deriving Repr, DecidableEq

/-- The predicate `i.id === parseInt(id)` used by the PUT and DELETE
handlers to locate a record (`NaN` compares unequal to everything). -/
def idMatches (idStr : String) (i : Inquiry) : Bool :=
  jsParseInt idStr == some (i.id : Int)

/-- The in-place edit the PUT handler performs on the record it found:
`status = status || inquiry.status`,
`notes = notes !== undefined ? notes : inquiry.notes`,
`updated_at = new Date().toISOString()`. -/
def applyEdit (req : UpdateRequest) (nowIso : String) (i : Inquiry) : Inquiry :=
  { i with
    status := match req.status with
      | some s => if s = "" then i.status else s
      | none => i.status
    notes := match req.notes with
      | some v => v
      | none => i.notes
    updated_at := nowIso }

/-- Replace the first element satisfying `p` by its image under `f`
(models mutating, through the reference `find` returned, the one
element of the array it located). -/
def replaceFirst (p : Inquiry → Bool) (f : Inquiry → Inquiry) :
    List Inquiry → List Inquiry
  | [] => []
  | i :: rest => if p i then f i :: rest else i :: replaceFirst p f rest

/-- The PUT `/api/admin/inquiries/:id` handler (src/server.js lines
189-211): find the record by id, edit it in place, persist; 404 when
no record matches. -/
def updateInquiry (idStr : String) (req : UpdateRequest) (nowIso : String)
    (doc : Document) : UpdateResult × Document :=
  match doc.inquiries.find? (idMatches idStr) with
  | none => (.notFound, doc)
  | some inquiry =>
    (.ok (applyEdit req nowIso inquiry),
      { doc with
        inquiries := replaceFirst (idMatches idStr) (applyEdit req nowIso)
          doc.inquiries })

/-- The DELETE `/api/admin/inquiries/:id` handler (src/server.js lines
214-232): filter out the matching record; write back and report success
only when the list shrank, else 404 with the document untouched. -/
def removeInquiry (idStr : String) (doc : Document) : Bool × Document :=
  let filtered := doc.inquiries.filter (fun i => !(idMatches idStr i))
  if filtered.length < doc.inquiries.length then
    (true, { doc with inquiries := filtered })
  else
    (false, doc)

/-- Result of the admin-auth gate: proceed, or HTTP 401 with a message. -/
inductive AuthResult where
  | ok
  | unauthorized (msg : String)
deriving Repr, DecidableEq

/-- JavaScript `String.split(sep)` on character separators: always at
least one (possibly empty) segment. -/
def jsSplit (sep : Char) : List Char → List (List Char)
  | [] => [[]]
  | c :: rest =>
    if c = sep then [] :: jsSplit sep rest
    else
      match jsSplit sep rest with
      | [] => [[c]]
      | g :: gs => (c :: g) :: gs

/-- `s.startsWith(pre)` via an explicit prefix check on the characters. -/
def jsStartsWith (s pre : List Char) : Bool :=
  match pre, s with
  | [], _ => true
  | _ :: _, [] => false
  | p :: ps, c :: cs => c == p && jsStartsWith cs ps

/-- The base64 value of a character, `none` for non-alphabet characters
(Node's lenient decoder skips those). -/
def base64Val (c : Char) : Option Nat :=
  if 'A' ≤ c ∧ c ≤ 'Z' then some (c.toNat - 65)
  else if 'a' ≤ c ∧ c ≤ 'z' then some (c.toNat - 97 + 26)
  else if '0' ≤ c ∧ c ≤ '9' then some (c.toNat - 48 + 52)
  else if c = '+' then some 62
  else if c = '/' then some 63
  else none

/-- Regroup base64 sextets into bytes: 4 sextets give 3 bytes, a
trailing 3 give 2, a trailing 2 give 1. -/
def sextetsToBytes : List Nat → List Nat
  | a :: b :: c :: d :: rest =>
    (a * 4 + b / 16) :: ((b % 16) * 16 + c / 4) :: ((c % 4) * 64 + d) ::
      sextetsToBytes rest
  | [a, b] => [a * 4 + b / 16]
  | [a, b, c] => [a * 4 + b / 16, (b % 16) * 16 + c / 4]
  | _ => []

/-- `Buffer.from(s, 'base64').toString('ascii')`: decode the base64
payload to bytes, then Node's `ascii` decoding masks each byte to
7 bits. -/
def base64DecodeAscii (s : String) : String :=
  String.mk ((sextetsToBytes (s.data.filterMap base64Val)).map
    (fun b => Char.ofNat (b % 128)))

/-- The base64 payload of the header: `authHeader.split(' ')[1]`. -/
def headerPayload (h : String) : String :=
  String.mk ((jsSplit ' ' h.data).getD 1 [])

/-- The decoded credential string split on `:`:
`credentials.split(':')`. -/
def credParts (h : String) : List (List Char) :=
  jsSplit ':' (base64DecodeAscii (headerPayload h)).data

/-- The `username` of the destructuring `[username, password]`
(`none` models `undefined` when the split has no such element). -/
def headerUser (h : String) : Option String :=
  ((credParts h)[0]?).map String.mk

/-- The `password` of the destructuring `[username, password]`. -/
def headerPass (h : String) : Option String :=
  ((credParts h)[1]?).map String.mk

/-- The auth gate of the GET `/api/admin/inquiries` handler
(src/server.js lines 159-175): missing header or non-`Basic ` scheme
give 401 "Unauthorized"; a decoded credential pair that does not match
the configured secrets verbatim gives 401 "Invalid credentials". -/
def adminAuth (authHeader : Option String) (adminUser adminPass : String) :
    AuthResult :=
  match authHeader with
  | none => .unauthorized "Unauthorized"
  | some h =>
    if !(jsStartsWith h.data "Basic ".data) then
      .unauthorized "Unauthorized"
    else if headerUser h != some adminUser || headerPass h != some adminPass then
      .unauthorized "Invalid credentials"
    else
      .ok

/-- The rate-limit window in milliseconds. -/
def windowMs : Nat := 60000

/-- The maximum number of requests per window. -/
def maxRequests : Nat := 30

/-- One call of `apiLimiter` (src/server.js lines 43-56) for a single
client key: `requests` is the stored timestamp list, `now` the current
`Date.now()`.  Returns whether the request is allowed and the list the
store holds afterwards (on rejection `set` is never reached, so the
old list stays). -/
def apiLimiter (now : Nat) (requests : List Nat) : Bool × List Nat :=
  let recentRequests := requests.filter (fun time => decide (now - time < 60000))
  if 30 ≤ recentRequests.length then
    (false, requests)
  else
    (true, recentRequests ++ [now])

/-- Run a sequence of calls (at the given instants) against the limiter,
returning each call's verdict and the final stored list. -/
def runCalls (stored : List Nat) : List Nat → List Bool × List Nat
  | [] => ([], stored)
  | t :: ts =>
    let step := apiLimiter t stored
    let rest := runCalls step.2 ts
    (step.1 :: rest.1, rest.2)

/-- A mutating API operation, for reasoning about reachable documents. -/
inductive Op where
  | submit (req : InquiryRequest) (nowIso : String)
  | update (idStr : String) (req : UpdateRequest) (nowIso : String)
  | remove (idStr : String)

/-- The document produced by one operation (ignoring the HTTP result). -/
def applyOp (doc : Document) : Op → Document
  | .submit req nowIso => (SafarSorted.submit req nowIso doc).2
  | .update idStr req nowIso => (updateInquiry idStr req nowIso doc).2
  | .remove idStr => (removeInquiry idStr doc).2

/-- The document reached from `doc` by a sequence of operations. -/
def runOps (doc : Document) (ops : List Op) : Document :=
  ops.foldl applyOp doc

/-! Concrete sample data used to instantiate the theorems. -/

/-- A well-formed submission. -/
def reqA : InquiryRequest :=
  { name := some "A", phone := some "+1234567890", travelers := some "2"
    destination := some "Goa", travelDate := none, travelerType := none
    email := none, message := none }

/-- The same submission with a non-numeric `travelers` value. -/
def reqAbc : InquiryRequest := { reqA with travelers := some "abc" }

/-- The same submission with the malformed phone of the spec's example. -/
def req123 : InquiryRequest := { reqA with phone := some "123-456" }

/-- The record `submit reqA "t0" emptyDoc` stores. -/
def inq1 : Inquiry :=
  { id := 1, name := "A", phone := "+1234567890", email := ""
    travelers := some 2, destination := "Goa", travel_date := none
    traveler_type := none, message := "", status := "new", notes := none
    created_at := "t0", updated_at := "t0" }

/-- A one-inquiry store document. -/
def doc1 : Document := { inquiries := [inq1], lastId := 1 }

/-! Shared lemmas about `submit`. -/

/-- An accepted submission returns `doc.lastId + 1` and produces exactly
the document with the new record appended and the counter advanced. -/
lemma submit_created_spec (req : InquiryRequest) (nowIso : String)
    (doc : Document) (n : Nat)
    (h : (submit req nowIso doc).1 = .created n) :
    n = doc.lastId + 1 ∧
    (submit req nowIso doc).2 =
      { inquiries := doc.inquiries ++ [newInquiry req nowIso doc]
        lastId := doc.lastId + 1 } := by
  cases h1 : (truthy req.name && truthy req.phone &&
      truthy req.travelers && truthy req.destination) with
  | false => simp [submit, h1] at h
  | true =>
    cases h2 : phonePatternTest (stripWhitespace (jsGetStr req.phone)) with
    | false => simp [submit, h1, h2] at h
    | true =>
      simp [submit, h1, h2] at h
      exact ⟨h.symm, by simp [submit, h1, h2]⟩

/-- A submission that fails a validation check leaves the result
at a `validationError` and the document untouched. -/
lemma submit_not_created (req : InquiryRequest) (nowIso : String)
    (doc : Document)
    (h : (truthy req.name && truthy req.phone &&
          truthy req.travelers && truthy req.destination) = false ∨
         phonePatternTest (stripWhitespace (jsGetStr req.phone)) = false) :
    (submit req nowIso doc).2 = doc := by
  rcases h with h | h
  · simp [submit, h]
  · cases h1 : (truthy req.name && truthy req.phone &&
        truthy req.travelers && truthy req.destination) with
    | false => simp [submit, h1]
    | true => simp [submit, h1, h]

/-- C1: for every valid submission accepted by `submit`
(POST `/api/inquiry`), the id returned to the client equals the store's
previous `lastId + 1`, after the write the store's `lastId` equals that
returned id, and the new inquiry is appended to the end of the
`inquiries` list. -/
theorem submit_returns_next_id (req : InquiryRequest) (nowIso : String)
    (doc : Document) (n : Nat)
    (h : (submit req nowIso doc).1 = .created n) :
    n = doc.lastId + 1 ∧ (submit req nowIso doc).2.lastId = n ∧
    ∃ inq : Inquiry,
      (submit req nowIso doc).2.inquiries = doc.inquiries ++ [inq] ∧
      inq.id = n := by
  obtain ⟨hn, hdoc⟩ := submit_created_spec req nowIso doc n h
  subst hn
  exact ⟨rfl, by rw [hdoc], ⟨newInquiry req nowIso doc, by rw [hdoc], rfl⟩⟩

/-- Witness for C1 at a concrete accepted submission. -/
theorem submit_returns_next_id_witness :
    (submit reqA "t0" emptyDoc).1 = .created 1 ∧
    (1 = emptyDoc.lastId + 1 ∧ (submit reqA "t0" emptyDoc).2.lastId = 1 ∧
      ∃ inq : Inquiry,
        (submit reqA "t0" emptyDoc).2.inquiries = emptyDoc.inquiries ++ [inq] ∧
        inq.id = 1) :=
  ⟨by decide, submit_returns_next_id reqA "t0" emptyDoc 1 (by decide)⟩

/-- C7: a submission in which any one of `name`, `phone`, `travelers`,
`destination` is missing or not truthy gets the 400 validation failure
"Missing required fields" and leaves the store document unchanged. -/
theorem submit_missing_required (req : InquiryRequest) (nowIso : String)
    (doc : Document)
    (h : truthy req.name = false ∨ truthy req.phone = false ∨
         truthy req.travelers = false ∨ truthy req.destination = false) :
    submit req nowIso doc = (.validationError "Missing required fields", doc) := by
  have hb : (truthy req.name && truthy req.phone &&
      truthy req.travelers && truthy req.destination) = false := by
    rcases h with h | h | h | h <;> simp [h]
  simp [submit, hb]

/-- Witness for C7 at a submission with no `name`. -/
theorem submit_missing_required_witness :
    truthy ({ reqA with name := none } : InquiryRequest).name = false ∧
    submit { reqA with name := none } "t0" emptyDoc =
      (.validationError "Missing required fields", emptyDoc) :=
  ⟨by decide, submit_missing_required _ "t0" emptyDoc (Or.inl (by decide))⟩

/-- C10 counterexample: the submission `reqAbc` (travelers `"abc"`,
all other fields valid) is accepted with id 1 but the stored record's
`travelers` is `none`, i.e. the JavaScript `NaN`, not an integer. -/
theorem submit_travelers_nan_counterexample :
    (submit reqAbc "t0" emptyDoc).1 = .created 1 ∧
    (submit reqAbc "t0" emptyDoc).2.inquiries.map Inquiry.travelers = [none] := by
  decide

/-- C10 amended: for every submission accepted by `submit`, the stored
record's `travelers` field is `parseInt` of the submitted travelers
input — an integer when the input has a leading integer numeral and
`NaN` (modelled as `none`, serialized as `null`) otherwise. -/
theorem submit_travelers_parseInt (req : InquiryRequest) (nowIso : String)
    (doc : Document) (n : Nat)
    (h : (submit req nowIso doc).1 = .created n) :
    ∃ inq : Inquiry,
      (submit req nowIso doc).2.inquiries = doc.inquiries ++ [inq] ∧
      inq.travelers = jsParseInt (jsGetStr req.travelers) := by
  obtain ⟨hn, hdoc⟩ := submit_created_spec req nowIso doc n h
  exact ⟨newInquiry req nowIso doc, by rw [hdoc], rfl⟩

/-- Witness for the amended C10 at a concrete accepted submission. -/
theorem submit_travelers_parseInt_witness :
    (submit reqA "t0" emptyDoc).1 = .created 1 ∧
    ∃ inq : Inquiry,
      (submit reqA "t0" emptyDoc).2.inquiries = emptyDoc.inquiries ++ [inq] ∧
      inq.travelers = jsParseInt (jsGetStr reqA.travelers) :=
  ⟨by decide, submit_travelers_parseInt reqA "t0" emptyDoc 1 (by decide)⟩

/-- C6: for a submitted (truthy) phone value, `submit` strips all
whitespace and accepts exactly when the result is an optional leading
`+` followed by 10 to 15 digits, otherwise replying 400
"Invalid phone number"; `"123-456"` fails the pattern and
`"+919876543210"` passes it. -/
theorem submit_phone_validation (req : InquiryRequest) (nowIso : String)
    (doc : Document) (p : String)
    (hp : req.phone = some p) (hne : p ≠ "")
    (hname : truthy req.name = true) (htrav : truthy req.travelers = true)
    (hdest : truthy req.destination = true) :
    (phonePatternTest (stripWhitespace p) = true →
      (submit req nowIso doc).1 = .created (doc.lastId + 1) ∧
      ∃ inq : Inquiry,
        (submit req nowIso doc).2.inquiries = doc.inquiries ++ [inq] ∧
        inq.phone = stripWhitespace p) ∧
    (phonePatternTest (stripWhitespace p) = false →
      submit req nowIso doc = (.validationError "Invalid phone number", doc)) ∧
    phonePatternTest (stripWhitespace "123-456") = false ∧
    phonePatternTest (stripWhitespace "+919876543210") = true := by
  have hphone : truthy req.phone = true := by
    rw [hp]; simp [truthy, bne_iff_ne]; exact hne
  have hget : jsGetStr req.phone = p := by rw [hp]; rfl
  have hb : (truthy req.name && truthy req.phone &&
      truthy req.travelers && truthy req.destination) = true := by
    simp [hname, hphone, htrav, hdest]
  refine ⟨?_, ?_, by decide, by decide⟩
  · intro hmatch
    refine ⟨by simp [submit, hb, hget, hmatch],
      ⟨newInquiry req nowIso doc, by simp [submit, hb, hget, hmatch],
        by simp [newInquiry, hget]⟩⟩
  · intro hmatch
    simp [submit, hb, hget, hmatch]

/-- Witness for C6: the spec's two example phones, driven through
`submit` with all other fields valid. -/
theorem submit_phone_validation_witness :
    submit req123 "t0" emptyDoc =
      (.validationError "Invalid phone number", emptyDoc) ∧
    (submit { reqA with phone := some "+919876543210" } "t0" emptyDoc).1 =
      .created 1 :=
  ⟨(submit_phone_validation req123 "t0" emptyDoc "123-456" (by decide)
      (by decide) (by decide) (by decide) (by decide)).2.1 (by decide),
   ((submit_phone_validation { reqA with phone := some "+919876543210" }
      "t0" emptyDoc "+919876543210" (by decide) (by decide) (by decide)
      (by decide) (by decide)).1 (by decide)).1⟩


/-! Lemmas about `removeInquiry` (DELETE handler). -/

/-- The filtered list is strictly shorter exactly when some element
fails the predicate. -/
lemma length_filter_lt_iff {α : Type} (p : α → Bool) (l : List α) :
    (l.filter p).length < l.length ↔ ∃ x ∈ l, p x = false := by
  induction l with
  | nil => simp
  | cons a l ih =>
    by_cases ha : p a = true
    · rw [List.filter_cons_of_pos ha]
      simp only [List.length_cons, Nat.succ_lt_succ_iff, ih, List.mem_cons]
      constructor
      · rintro ⟨x, hx, hpx⟩; exact ⟨x, Or.inr hx, hpx⟩
      · rintro ⟨x, hx | hx, hpx⟩
        · rw [hx] at hpx; rw [ha] at hpx; cases hpx
        · exact ⟨x, hx, hpx⟩
    · have ha' : p a = false := by simpa using ha
      rw [List.filter_cons_of_neg (by simp [ha'])]
      constructor
      · intro _; exact ⟨a, List.mem_cons_self a l, ha'⟩
      · intro _; exact Nat.lt_succ_of_le (List.length_filter_le p l)

/-- Unfolding equation for `removeInquiry`. -/
lemma removeInquiry_eq (idStr : String) (doc : Document) :
    removeInquiry idStr doc =
      if (doc.inquiries.filter
          (fun i => !(idMatches idStr i))).length < doc.inquiries.length
      then (true,
        { doc with
          inquiries := doc.inquiries.filter (fun i => !(idMatches idStr i)) })
      else (false, doc) := rfl

/-- `removeInquiry` reports success exactly when a record with the
requested id is present. -/
lemma removeInquiry_fst_iff (idStr : String) (doc : Document) :
    (removeInquiry idStr doc).1 = true ↔
      ∃ i ∈ doc.inquiries, idMatches idStr i = true := by
  rw [removeInquiry_eq]
  by_cases hlt : (doc.inquiries.filter
      (fun i => !(idMatches idStr i))).length < doc.inquiries.length
  · rw [if_pos hlt]
    obtain ⟨x, hx, hpx⟩ := (length_filter_lt_iff _ _).mp hlt
    exact iff_of_true rfl ⟨x, hx, by simpa using hpx⟩
  · rw [if_neg hlt]
    constructor
    · intro h; cases h
    · rintro ⟨x, hx, hmatch⟩
      exact absurd ((length_filter_lt_iff _ _).mpr ⟨x, hx, by simp [hmatch]⟩) hlt

/-- On success `removeInquiry` keeps exactly the non-matching records. -/
lemma removeInquiry_snd_of_found (idStr : String) (doc : Document)
    (h : (removeInquiry idStr doc).1 = true) :
    (removeInquiry idStr doc).2.inquiries =
      doc.inquiries.filter (fun i => !(idMatches idStr i)) := by
  rw [removeInquiry_eq] at h ⊢
  by_cases hlt : (doc.inquiries.filter
      (fun i => !(idMatches idStr i))).length < doc.inquiries.length
  · rw [if_pos hlt]
  · rw [if_neg hlt] at h
    cases h

/-- On failure `removeInquiry` reports `false` and leaves the document
untouched (in particular nothing is written back). -/
lemma removeInquiry_of_not_found (idStr : String) (doc : Document)
    (h : ¬ (removeInquiry idStr doc).1 = true) :
    removeInquiry idStr doc = (false, doc) := by
  rw [removeInquiry_eq] at h ⊢
  by_cases hlt : (doc.inquiries.filter
      (fun i => !(idMatches idStr i))).length < doc.inquiries.length
  · rw [if_pos hlt] at h
    exact absurd rfl h
  · rw [if_neg hlt]

/-- C8: `remove(id)` keeps exactly the records whose id differs,
reports success exactly when a record with that id was present
(otherwise 404), writes the document back only when a removal
occurred, and a second delete of the same id therefore fails. -/
theorem remove_reports_presence (idStr : String) (doc : Document) :
    ((removeInquiry idStr doc).1 = true ↔
      ∃ i ∈ doc.inquiries, idMatches idStr i = true) ∧
    ((removeInquiry idStr doc).1 = true →
      (removeInquiry idStr doc).2.inquiries =
        doc.inquiries.filter (fun i => !(idMatches idStr i))) ∧
    ((removeInquiry idStr doc).1 = false →
      removeInquiry idStr doc = (false, doc)) ∧
    ((removeInquiry idStr doc).1 = true →
      (removeInquiry idStr (removeInquiry idStr doc).2).1 = false) := by
  refine ⟨removeInquiry_fst_iff idStr doc,
    removeInquiry_snd_of_found idStr doc, ?_, ?_⟩
  · intro h
    exact removeInquiry_of_not_found idStr doc (by simp [h])
  · intro h
    cases hsecond : (removeInquiry idStr (removeInquiry idStr doc).2).1 with
    | false => rfl
    | true =>
      obtain ⟨i, hi, hm⟩ := (removeInquiry_fst_iff idStr _).mp hsecond
      rw [removeInquiry_snd_of_found idStr doc h] at hi
      have := (List.mem_filter.mp hi).2
      rw [hm] at this
      cases this

/-- Witness for C8: deleting record 1 from `doc1` succeeds, deleting it
again fails. -/
theorem remove_reports_presence_witness :
    (removeInquiry "1" doc1).1 = true ∧
    (removeInquiry "1" (removeInquiry "1" doc1).2).1 = false :=
  ⟨by decide, (remove_reports_presence "1" doc1).2.2.2 (by decide)⟩

/-- C2: `update(id, status?, notes?)` on an existing id replaces
`status` only when a (truthy) status value was supplied and keeps it
when the field is absent, replaces `notes` exactly when the field was
present in the request (explicit null or empty included — the test is
presence, not truthiness), refreshes `updated_at`; an id matching no
inquiry gets NotFound (404). -/
theorem update_spec (idStr : String) (req : UpdateRequest) (nowIso : String)
    (doc : Document) :
    ((∀ i ∈ doc.inquiries, idMatches idStr i = false) →
      (updateInquiry idStr req nowIso doc).1 = .notFound) ∧
    (∀ old : Inquiry, doc.inquiries.find? (idMatches idStr) = some old →
      ∃ inq : Inquiry, (updateInquiry idStr req nowIso doc).1 = .ok inq ∧
        (req.status = none → inq.status = old.status) ∧
        (inq.status ≠ old.status → ∃ s, req.status = some s ∧ inq.status = s) ∧
        (req.notes = none → inq.notes = old.notes) ∧
        (∀ v, req.notes = some v → inq.notes = v) ∧
        inq.updated_at = nowIso) := by
  constructor
  · intro hall
    have hnone : doc.inquiries.find? (idMatches idStr) = none :=
      List.find?_eq_none.mpr (fun x hx => by simp [hall x hx])
    simp [updateInquiry, hnone]
  · intro old hfind
    refine ⟨applyEdit req nowIso old, by simp [updateInquiry, hfind],
      ?_, ?_, ?_, ?_, rfl⟩
    · intro hs; simp [applyEdit, hs]
    · intro hne
      match hs : req.status with
      | none => exact absurd (by simp [applyEdit, hs]) hne
      | some s =>
        by_cases hse : s = ""
        · exact absurd (by simp [applyEdit, hs, hse]) hne
        · exact ⟨s, rfl, by simp [applyEdit, hs, hse]⟩
    · intro hn; simp [applyEdit, hn]
    · intro v hv; simp [applyEdit, hv]

/-- Witness for C2: updating the non-existent id 2 in `doc1` gives
NotFound. -/
theorem update_spec_witness :
    (∀ i ∈ doc1.inquiries, idMatches "2" i = false) ∧
    (updateInquiry "2" { status := none, notes := none } "t1" doc1).1 =
      .notFound :=
  ⟨by decide,
    (update_spec "2" { status := none, notes := none } "t1" doc1).1 (by decide)⟩


/-! Lemmas about the Basic-auth credential parsing. -/

/-- Unfolding equation for `jsSplit` on a cons cell. -/
lemma jsSplit_cons (sep c : Char) (cs : List Char) :
    jsSplit sep (c :: cs) =
      if c = sep then [] :: jsSplit sep cs
      else
        match jsSplit sep cs with
        | [] => [[c]]
        | g :: gs => (c :: g) :: gs := rfl

/-- Splitting a list free of the separator yields the single segment. -/
lemma jsSplit_eq_single (sep : Char) (l : List Char) (h : sep ∉ l) :
    jsSplit sep l = [l] := by
  induction l with
  | nil => rfl
  | cons c cs ih =>
    have hc : ¬ c = sep := fun hh => h (hh ▸ List.mem_cons_self c cs)
    have hcs : sep ∉ cs := fun hh => h (List.mem_cons_of_mem c hh)
    rw [jsSplit_cons, if_neg hc, ih hcs]

/-- Splitting cuts at the first separator occurrence. -/
lemma jsSplit_append (sep : Char) (l₁ l₂ : List Char) (h : sep ∉ l₁) :
    jsSplit sep (l₁ ++ sep :: l₂) = l₁ :: jsSplit sep l₂ := by
  induction l₁ with
  | nil =>
    show jsSplit sep (sep :: l₂) = [] :: jsSplit sep l₂
    rw [jsSplit_cons, if_pos rfl]
  | cons c cs ih =>
    have hc : ¬ c = sep := fun hh => h (hh ▸ List.mem_cons_self c cs)
    have hcs : sep ∉ cs := fun hh => h (List.mem_cons_of_mem c hh)
    show jsSplit sep (c :: (cs ++ sep :: l₂)) = (c :: cs) :: jsSplit sep l₂
    rw [jsSplit_cons, if_neg hc, ih hcs]

/-- The empty prefix starts every list. -/
lemma jsStartsWith_nil (s : List Char) : jsStartsWith s [] = true := by
  cases s <;> rfl

/-- A list starts with any prefix it extends. -/
lemma jsStartsWith_append (pre rest : List Char) :
    jsStartsWith (pre ++ rest) pre = true := by
  induction pre with
  | nil => exact jsStartsWith_nil ([] ++ rest)
  | cons c cs ih => simp [jsStartsWith, ih]

/-- For a header `Basic <payload>` with a space-free payload, the
extracted base64 payload is exactly `payload`. -/
lemma headerPayload_basic (payload : String) (hsp : ' ' ∉ payload.data) :
    headerPayload ("Basic " ++ payload) = payload := by
  unfold headerPayload
  have h1 : ("Basic " ++ payload).data =
      ['B', 'a', 's', 'i', 'c'] ++ (' ' :: payload.data) := rfl
  rw [h1, jsSplit_append ' ' _ _ (by decide), jsSplit_eq_single ' ' _ hsp]
  rfl

/-- When the decoded credentials are `u:p` with colon-free `u` and `p`,
the destructured username and password are exactly `u` and `p`. -/
lemma credParts_basic (u p payload : String)
    (hdec : base64DecodeAscii payload = u ++ ":" ++ p)
    (hsp : ' ' ∉ payload.data) (hu : ':' ∉ u.data) (hp2 : ':' ∉ p.data) :
    headerUser ("Basic " ++ payload) = some u ∧
    headerPass ("Basic " ++ payload) = some p := by
  unfold headerUser headerPass credParts
  rw [headerPayload_basic payload hsp, hdec]
  have h2 : (u ++ ":" ++ p).data = u.data ++ (':' :: p.data) := by
    have e1 : (u ++ ":" ++ p).data = (u.data ++ [':']) ++ p.data := rfl
    rw [e1, List.append_assoc]
    rfl
  rw [h2, jsSplit_append ':' _ _ hu, jsSplit_eq_single ':' _ hp2]
  exact ⟨rfl, rfl⟩

/-- C3 counterexample: a failing attempt with a wrong password is
answered 401 "Invalid credentials" while a missing Authorization
header is answered 401 "Unauthorized" — the externally visible error
message is not the same in all four failing cases. -/
theorem authFailures_message_counterexample :
    base64DecodeAscii "TWVodWwyMDAyMDp3cm9uZw==" =
      "Mehul20020" ++ ":" ++ "wrong" ∧
    adminAuth none "Mehul20020" "Ninja2002@" = .unauthorized "Unauthorized" ∧
    adminAuth (some ("Basic " ++ "TWVodWwyMDAyMDp3cm9uZw=="))
      "Mehul20020" "Ninja2002@" = .unauthorized "Invalid credentials" ∧
    ("Unauthorized" : String) ≠ "Invalid credentials" := by
  refine ⟨by decide, rfl, by decide, by decide⟩

/-- C3 amended: every failing authentication attempt on the admin
listing route is answered 401, with the message "Unauthorized" for a
missing header or a non-Basic scheme and the message
"Invalid credentials" for a wrong username or wrong password (so the
response does reveal whether the header carried a well-formed Basic
credential). -/
theorem authFailures_all_401 (u p : String) :
    adminAuth none u p = .unauthorized "Unauthorized" ∧
    (∀ h : String, jsStartsWith h.data "Basic ".data = false →
      adminAuth (some h) u p = .unauthorized "Unauthorized") ∧
    (∀ h : String, jsStartsWith h.data "Basic ".data = true →
      headerUser h ≠ some u ∨ headerPass h ≠ some p →
      adminAuth (some h) u p = .unauthorized "Invalid credentials") := by
  refine ⟨rfl, ?_, ?_⟩
  · intro h hs
    simp [adminAuth, hs]
  · intro h hs hbad
    have hb : (headerUser h != some u || headerPass h != some p) = true := by
      rcases hbad with hb | hb <;> simp [bne_iff_ne, hb]
    simp [adminAuth, hs, hb]

/-- Witness for the amended C3: a non-Basic scheme gets 401
"Unauthorized". -/
theorem authFailures_all_401_witness :
    jsStartsWith ("Bearer x").data "Basic ".data = false ∧
    adminAuth (some "Bearer x") "Mehul20020" "Ninja2002@" =
      .unauthorized "Unauthorized" :=
  ⟨by decide,
    (authFailures_all_401 "Mehul20020" "Ninja2002@").2.1 "Bearer x" (by decide)⟩

/-- C9 counterexample: with configured password `"a:b"` (which contains
a colon) and username `"admin"`, the header carrying
`Basic base64("admin" ++ ":" ++ "a:b")` does NOT authenticate: the
split on every colon truncates the password to `"a"`. -/
theorem basicAuth_colon_password_counterexample :
    base64DecodeAscii "YWRtaW46YTpi" = "admin" ++ ":" ++ "a:b" ∧
    adminAuth (some ("Basic " ++ "YWRtaW46YTpi")) "admin" "a:b" =
      .unauthorized "Invalid credentials" := by
  refine ⟨by decide, by decide⟩

/-- C9 amended: the authenticator splits the decoded payload on every
colon and takes the first two segments as username and password; hence
a header carrying `Basic base64(username ++ ":" ++ password)`
authenticates whenever both fields match the configured secrets
verbatim and neither configured field itself contains a colon. -/
theorem basicAuth_accepts_matching (u p payload : String)
    (hdec : base64DecodeAscii payload = u ++ ":" ++ p)
    (hsp : ' ' ∉ payload.data) (hu : ':' ∉ u.data) (hp2 : ':' ∉ p.data) :
    adminAuth (some ("Basic " ++ payload)) u p = .ok := by
  obtain ⟨hu', hp'⟩ := credParts_basic u p payload hdec hsp hu hp2
  have hstart : jsStartsWith ("Basic " ++ payload).data "Basic ".data = true :=
    jsStartsWith_append "Basic ".data payload.data
  simp only [adminAuth]
  rw [hstart, hu', hp']
  simp

/-- Witness for the amended C9 at the configured default credentials. -/
theorem basicAuth_accepts_matching_witness :
    base64DecodeAscii "TWVodWwyMDAyMDpOaW5qYTIwMDJA" =
      "Mehul20020" ++ ":" ++ "Ninja2002@" ∧
    adminAuth (some ("Basic " ++ "TWVodWwyMDAyMDpOaW5qYTIwMDJA"))
      "Mehul20020" "Ninja2002@" = .ok :=
  ⟨by decide, basicAuth_accepts_matching "Mehul20020" "Ninja2002@"
    "TWVodWwyMDAyMDpOaW5qYTIwMDJA" (by decide) (by decide) (by decide)
    (by decide)⟩

/-! Lemmas about the rate limiter. -/

/-- Unfolding equation for `apiLimiter`. -/
lemma apiLimiter_eq (now : Nat) (requests : List Nat) :
    apiLimiter now requests =
      if 30 ≤ (requests.filter
          (fun time => decide (now - time < 60000))).length
      then (false, requests)
      else (true, requests.filter
          (fun time => decide (now - time < 60000)) ++ [now]) := rfl

/-- While fewer than 30 entries are stored, every stored entry stays
inside the window of every coming call, and the calls themselves are
pairwise within the window, every call is allowed and appended. -/
lemma runCalls_all_allowed (ts : List Nat) :
    ∀ stored : List Nat,
    (∀ s ∈ stored, ∀ u ∈ ts, u - s < 60000) →
    List.Pairwise (fun a b => b - a < 60000) ts →
    stored.length + ts.length ≤ 30 →
    runCalls stored ts = (List.replicate ts.length true, stored ++ ts) := by
  induction ts with
  | nil =>
    intro stored _ _ _
    simp [runCalls]
  | cons t ts ih =>
    intro stored hfresh hpair hlen
    have hkeep : stored.filter (fun time => decide (t - time < 60000)) = stored :=
      List.filter_eq_self.mpr (fun s hs => by
        simpa using hfresh s hs t (List.mem_cons_self t ts))
    have hstep : apiLimiter t stored = (true, stored ++ [t]) := by
      rw [apiLimiter_eq, hkeep, if_neg (by simp at hlen; omega)]
    have hfresh2 : ∀ s ∈ stored ++ [t], ∀ u ∈ ts, u - s < 60000 := by
      intro s hs u hu
      rcases List.mem_append.mp hs with hs | hs
      · exact hfresh s hs u (List.mem_cons_of_mem t hu)
      · rw [List.mem_singleton.mp hs]
        exact (List.pairwise_cons.mp hpair).1 u hu
    have hrec := ih (stored ++ [t]) hfresh2 (List.pairwise_cons.mp hpair).2
      (by simp at hlen ⊢; omega)
    simp only [runCalls, hstep, hrec, List.length_cons, List.replicate_succ]
    simp [List.append_assoc]

/-- C4: each `apiLimiter` call drops entries older than the 60,000 ms
window; if at least 30 entries remain the call is rejected and nothing
is recorded, otherwise the current instant is appended and the call is
allowed; consequently 30 calls within 60 s of the first all succeed,
a 31st within the window is rejected, and a call 61 s after the first
succeeds again. -/
theorem rateLimiter_window (now : Nat) (requests : List Nat) :
    (∀ t ∈ requests, 60000 < now - t →
      t ∉ requests.filter (fun time => decide (now - time < 60000))) ∧
    (30 ≤ (requests.filter (fun time => decide (now - time < 60000))).length →
      apiLimiter now requests = (false, requests)) ∧
    ((requests.filter (fun time => decide (now - time < 60000))).length < 30 →
      apiLimiter now requests =
        (true, requests.filter (fun time => decide (now - time < 60000)) ++ [now])) ∧
    (∀ (t0 : Nat) (rest : List Nat) (t31 tnew : Nat),
      List.Chain' (· ≤ ·) (t0 :: rest) →
      (t0 :: rest).length = 30 →
      (∀ t ∈ t0 :: rest, t - t0 < 60000) →
      (runCalls [] (t0 :: rest)).1 = List.replicate 30 true ∧
      (t31 - t0 < 60000 →
        apiLimiter t31 (runCalls [] (t0 :: rest)).2 =
          (false, (runCalls [] (t0 :: rest)).2)) ∧
      (t0 + 61000 ≤ tnew →
        (apiLimiter tnew (runCalls [] (t0 :: rest)).2).1 = true)) := by
  refine ⟨?_, ?_, ?_, ?_⟩
  · intro t ht hold hmem
    have := (List.mem_filter.mp hmem).2
    simp at this
    omega
  · intro hge
    rw [apiLimiter_eq, if_pos hge]
  · intro hlt
    rw [apiLimiter_eq, if_neg (by omega)]
  · intro t0 rest t31 tnew hchain hlen hwin
    have hsorted : List.Pairwise (· ≤ ·) (t0 :: rest) :=
      List.chain'_iff_pairwise.mp hchain
    have hge : ∀ b ∈ rest, t0 ≤ b :=
      fun b hb => (List.pairwise_cons.mp hsorted).1 b hb
    have hpair : List.Pairwise (fun a b => b - a < 60000) (t0 :: rest) := by
      rw [List.pairwise_cons]
      refine ⟨fun b hb => hwin b (List.mem_cons_of_mem _ hb), ?_⟩
      refine ((List.pairwise_cons.mp hsorted).2).imp_of_mem ?_
      intro a b ha hb hab
      have h1 : t0 ≤ a := hge a ha
      have h2 : b - t0 < 60000 := hwin b (List.mem_cons_of_mem _ hb)
      omega
    have hrun := runCalls_all_allowed (t0 :: rest) []
      (by intro s hs; cases hs) hpair
      (by simp only [List.length_nil, hlen]; omega)
    have hstored : (runCalls [] (t0 :: rest)).2 = t0 :: rest := by
      rw [hrun]
      simp
    have hallowed : (runCalls [] (t0 :: rest)).1 = List.replicate 30 true := by
      rw [hrun]
      simp [hlen]
    have hall_ge : ∀ s ∈ t0 :: rest, t0 ≤ s := by
      intro s hs
      rcases List.mem_cons.mp hs with hs | hs
      · omega
      · exact hge s hs
    refine ⟨hallowed, ?_, ?_⟩
    · intro h31
      have hkeep : (t0 :: rest).filter
          (fun time => decide (t31 - time < 60000)) = t0 :: rest :=
        List.filter_eq_self.mpr (fun s hs => by
          have := hall_ge s hs
          simp
          omega)
      rw [hstored, apiLimiter_eq, hkeep, if_pos (by omega)]
    · intro hnew
      have hdrop : decide (tnew - t0 < 60000) = false := by
        simp
        omega
      have hlen29 : rest.length = 29 := by
        simp at hlen
        omega
      rw [hstored, apiLimiter_eq]
      rw [List.filter_cons_of_neg (by simp [hdrop])]
      rw [if_neg (by
        have := List.length_filter_le
          (fun time => decide (tnew - time < 60000)) rest
        omega)]

/-- Witness for C4: 30 calls at instant 0 all succeed, a 31st call at
instant 0 is rejected without being recorded, and a call at instant
61000 succeeds again. -/
theorem rateLimiter_window_witness :
    List.Chain' (· ≤ ·) (0 :: List.replicate 29 0) ∧
    (0 :: List.replicate 29 0).length = 30 ∧
    (runCalls [] (0 :: List.replicate 29 0)).1 = List.replicate 30 true ∧
    apiLimiter 0 (runCalls [] (0 :: List.replicate 29 0)).2 =
      (false, (runCalls [] (0 :: List.replicate 29 0)).2) ∧
    (apiLimiter 61000 (runCalls [] (0 :: List.replicate 29 0)).2).1 = true := by
  have hchain : List.Chain' (· ≤ ·) (0 :: List.replicate 29 0) :=
    List.chain'_replicate_of_rel 30 (Nat.le_refl 0)
  have h := (rateLimiter_window 0 []).2.2.2 0 (List.replicate 29 0) 0 61000
    hchain (by decide) (by decide)
  exact ⟨hchain, by decide, h.1, h.2.1 (by decide), h.2.2 (by decide)⟩

/-! Lemmas about documents reachable through the API operations. -/

/-- Every id present in the document is bounded by the counter. -/
def InvDoc (doc : Document) : Prop :=
  ∀ i ∈ doc.inquiries, i.id ≤ doc.lastId

/-- Membership in a first-match replacement comes from the original
list, either unchanged or through the edit. -/
lemma mem_replaceFirst {p : Inquiry → Bool} {f : Inquiry → Inquiry}
    {l : List Inquiry} {x : Inquiry} (hx : x ∈ replaceFirst p f l) :
    x ∈ l ∨ ∃ y ∈ l, x = f y := by
  induction l with
  | nil => cases hx
  | cons a l ih =>
    by_cases ha : p a = true
    · rw [replaceFirst, if_pos ha] at hx
      rcases List.mem_cons.mp hx with hx | hx
      · exact Or.inr ⟨a, List.mem_cons_self a l, hx⟩
      · exact Or.inl (List.mem_cons_of_mem a hx)
    · rw [replaceFirst, if_neg ha] at hx
      rcases List.mem_cons.mp hx with hx | hx
      · exact Or.inl (hx ▸ List.mem_cons_self a l)
      · rcases ih hx with h | ⟨y, hy, hxy⟩
        · exact Or.inl (List.mem_cons_of_mem a h)
        · exact Or.inr ⟨y, List.mem_cons_of_mem a hy, hxy⟩

/-- No operation ever decreases the id counter. -/
lemma applyOp_lastId_ge (doc : Document) (op : Op) :
    doc.lastId ≤ (applyOp doc op).lastId := by
  cases op with
  | submit req nowIso =>
    show doc.lastId ≤ (submit req nowIso doc).2.lastId
    cases h1 : (truthy req.name && truthy req.phone &&
        truthy req.travelers && truthy req.destination) with
    | false => simp [submit, h1]
    | true =>
      cases h2 : phonePatternTest (stripWhitespace (jsGetStr req.phone)) with
      | false => simp [submit, h1, h2]
      | true => simp [submit, h1, h2]
  | update idStr req nowIso =>
    show doc.lastId ≤ (updateInquiry idStr req nowIso doc).2.lastId
    cases hf : doc.inquiries.find? (idMatches idStr) with
    | none => simp [updateInquiry, hf]
    | some old => simp [updateInquiry, hf]
  | remove idStr =>
    show doc.lastId ≤ (removeInquiry idStr doc).2.lastId
    rw [removeInquiry_eq]
    split <;> exact Nat.le_refl _

/-- The counter is monotone along any run of operations. -/
lemma runOps_lastId_ge (ops : List Op) :
    ∀ doc : Document, doc.lastId ≤ (runOps doc ops).lastId := by
  induction ops with
  | nil => intro doc; exact Nat.le_refl _
  | cons op ops ih =>
    intro doc
    show doc.lastId ≤ (runOps (applyOp doc op) ops).lastId
    exact Nat.le_trans (applyOp_lastId_ge doc op) (ih (applyOp doc op))

/-- Every operation preserves the id bound. -/
lemma invDoc_applyOp {doc : Document} (op : Op) (h : InvDoc doc) :
    InvDoc (applyOp doc op) := by
  cases op with
  | submit req nowIso =>
    show InvDoc (submit req nowIso doc).2
    cases h1 : (truthy req.name && truthy req.phone &&
        truthy req.travelers && truthy req.destination) with
    | false => simpa [submit, h1] using h
    | true =>
      cases h2 : phonePatternTest (stripWhitespace (jsGetStr req.phone)) with
      | false => simpa [submit, h1, h2] using h
      | true =>
        intro i hi
        simp [submit, h1, h2] at hi ⊢
        rcases hi with hi | hi
        · exact Nat.le_trans (h i hi) (Nat.le_succ _)
        · rw [hi]
          exact Nat.le_refl _
  | update idStr req nowIso =>
    show InvDoc (updateInquiry idStr req nowIso doc).2
    cases hf : doc.inquiries.find? (idMatches idStr) with
    | none => simpa [updateInquiry, hf] using h
    | some old =>
      intro i hi
      simp only [updateInquiry, hf] at hi ⊢
      rcases mem_replaceFirst hi with hmem | ⟨y, hy, hxy⟩
      · exact h i hmem
      · rw [hxy]
        exact h y hy
  | remove idStr =>
    show InvDoc (removeInquiry idStr doc).2
    rw [removeInquiry_eq]
    split
    · intro i hi
      exact h i (List.mem_of_mem_filter hi)
    · exact h

/-- The id bound holds along any run of operations. -/
lemma invDoc_runOps (ops : List Op) :
    ∀ doc : Document, InvDoc doc → InvDoc (runOps doc ops) := by
  induction ops with
  | nil => intro doc h; exact h
  | cons op ops ih =>
    intro doc h
    exact ih (applyOp doc op) (invDoc_applyOp op h)

/-- C5: in every store document reachable from the empty document by
submit, update and remove operations, `lastId` bounds every present id
(so it is ≥ the maximum id present), and an id assigned by a
successful submit is strictly smaller than any id assigned later — ids
are never reused, even after the record bearing one is deleted. -/
theorem ids_never_reused :
    (∀ ops : List Op, ∀ i ∈ (runOps emptyDoc ops).inquiries,
      i.id ≤ (runOps emptyDoc ops).lastId) ∧
    (∀ (ops1 : List Op) (req : InquiryRequest) (ts : String) (n : Nat)
       (ops2 : List Op) (req2 : InquiryRequest) (ts2 : String) (m : Nat),
      (submit req ts (runOps emptyDoc ops1)).1 = .created n →
      (submit req2 ts2
        (runOps (applyOp (runOps emptyDoc ops1) (.submit req ts)) ops2)).1 =
        .created m →
      n < m) := by
  constructor
  · intro ops
    exact invDoc_runOps ops emptyDoc (by intro i hi; cases hi)
  · intro ops1 req ts n ops2 req2 ts2 m h1 h2
    obtain ⟨hn, hdoc⟩ := submit_created_spec req ts (runOps emptyDoc ops1) n h1
    have hlast1 :
        (applyOp (runOps emptyDoc ops1) (Op.submit req ts)).lastId = n := by
      show (submit req ts (runOps emptyDoc ops1)).2.lastId = n
      rw [hdoc, hn]
    have hmono := runOps_lastId_ge ops2
      (applyOp (runOps emptyDoc ops1) (Op.submit req ts))
    obtain ⟨hm, _⟩ := submit_created_spec req2 ts2 _ m h2
    omega

/-- Witness for C5: submit (id 1), delete record 1, submit again — the
new id is 2, not a reuse of 1. -/
theorem ids_never_reused_witness :
    (submit reqA "t0" (runOps emptyDoc [])).1 = .created 1 ∧
    (submit reqA "t1"
      (runOps (applyOp (runOps emptyDoc []) (.submit reqA "t0"))
        [Op.remove "1"])).1 = .created 2 ∧
    (1 : Nat) < 2 :=
  ⟨by decide, by decide,
    ids_never_reused.2 [] reqA "t0" 1 [Op.remove "1"] reqA "t1" 2
      (by decide) (by decide)⟩

end SafarSorted
